import Mathlib

/-! Order routes and authentication middleware of the Security backend.

A shallow embedding of `backend/routes/orders.js`, `backend/middleware/auth.js`,
`backend/middleware/sessionAuth.js` and `sanitizeInput` of `backend/utils/validation.js`.

Modelling conventions.

* JavaScript `Number` values (prices, quantities, stock levels) are exact rationals `ℚ`.
* A Mongoose collection is a finite map from document id to document, written as a function
  `Nat → Option _`: `findById id` is application, and `_id` is the key (unique, as in MongoDB).
* A request handler is executed sequentially with no other writer: it reads a snapshot `Db`
  and yields its HTTP response together with the list of database writes it issues, in the
  order it awaits them.  `run` applies those writes.
* A JavaScript string is the list of its characters; a global `replace(re, '')` is a
  left-to-right scan driven by a function giving the length of the match of `re` at the
  current position.
* Persistence calls themselves do not throw; a handler reaches its `catch` block only through
  the exceptions its own code raises (dereferencing `null`).
-/

set_option autoImplicit false

namespace Security

/-! ## Data model -/

/-- Product document (`models/Product`): the fields the order routes read and write. -/
structure Product where
  name : String
  stock : ℚ

/-- Cart line: `{ product, quantity, price }`; `product` is the referenced product id. -/
structure CartItem where
  product : Nat
  quantity : ℚ
  price : ℚ

/-- Cart document, found by its owner through `Cart.findOne({ user })`. -/
structure Cart where
  items : List CartItem

/-- Order line item as built by `cart.items.map(...)`. -/
structure OrderItem where
  product : Nat
  quantity : ℚ
  price : ℚ
  totalPrice : ℚ

/-- Order document. -/
structure Order where
  user : Nat
  items : List OrderItem
  subtotal : ℚ
  tax : ℚ
  shipping : ℚ
  total : ℚ
  paymentMethod : Option String
  shippingAddress : Option String
  notes : Option String
  orderNumber : String
  status : String
  cancelledAt : Option Nat
  cancellationReason : Option String
  deliveredAt : Option Nat

/-- Stored user document (`models/User`). -/
structure UserDoc where
  role : String
  isEmailVerified : Bool
  lockUntil : Option Nat
  password : String

/-- Database snapshot: the four collections, keyed by `_id` (carts by owning user). -/
structure Db where
  products : Nat → Option Product
  carts : Nat → Option Cart
  orders : Nat → Option Order
  users : Nat → Option UserDoc

/-- One awaited database write. -/
inductive Write where
  | orderSave (orderId : Nat) (order : Order)
  | productInc (productId : Nat) (delta : ℚ)
  | cartClear (user : Nat)

/-- The update `Product.findByIdAndUpdate(id, { $inc: { stock: delta } })`: no document, no
change. -/
def incStock (products : Nat → Option Product) (productId : Nat) (delta : ℚ) :
    Nat → Option Product :=
  fun k =>
    if k = productId then
      match products k with
      | some p => some { p with stock := p.stock + delta }
      | none => none
    else products k

/-- Modelled from the spec: `cart.clearCart()` of `models/Cart` (not among the sources)
removes all line items of the cart and saves it. -/
def clearCart (carts : Nat → Option Cart) (user : Nat) : Nat → Option Cart :=
  fun k =>
    if k = user then
      match carts k with
      | some _ => some { items := [] }
      | none => none
    else carts k

/-- Effect of one write on the snapshot. -/
def Write.apply (db : Db) : Write → Db
  | .orderSave orderId order =>
      { db with orders := fun k => if k = orderId then some order else db.orders k }
  | .productInc productId delta => { db with products := incStock db.products productId delta }
  | .cartClear user => { db with carts := clearCart db.carts user }

/-- Apply writes in the order they were issued. -/
def applyWrites (db : Db) (ws : List Write) : Db :=
  ws.foldl Write.apply db

/-- The `order` summary object of the 201 response. -/
structure OrderSummary where
  id : Nat
  orderNumber : String
  total : ℚ
  status : String

/-- JSON response: HTTP status, `success`, `message` and the optional `order` payload. -/
structure Response where
  status : Nat
  success : Bool
  message : String
  order : Option OrderSummary

/-- Values the handler receives from outside: the `_id` and `orderNumber` Mongoose gives a new
order, and the clock read by `new Date()`. -/
structure Env where
  newOrderId : Nat
  orderNumber : String
  now : Nat

/-- Request body of `POST /orders`. -/
structure OrderBody where
  shippingAddress : Option String
  paymentMethod : Option String
  notes : Option String

/-! ## `POST /orders` -/

/-- Outcome of the stock-validation loop. -/
inductive StockCheck where
  | ok
  | insufficient (name : String)
  | threw
  deriving DecidableEq

/-- The loop `for (let item of cart.items)` of lines 86-94.  The cart was populated, so
`item.product` is the product document or `null`; on `null` the expression
`item.product._id` throws, and if the re-fetch gave `null` the template `product.name`
throws: both reach the `catch` block. -/
def validateStock (products : Nat → Option Product) : List CartItem → StockCheck
  | [] => .ok
  | item :: rest =>
    match products item.product with
    | none => .threw
    | some product =>
      if product.stock < item.quantity then .insufficient product.name
      else validateStock products rest

/-- The `cart.items.map(item => ({ ... }))` of lines 97-102. -/
def orderItems (items : List CartItem) : List OrderItem :=
  items.map fun item =>
    { product := item.product
      quantity := item.quantity
      price := item.price
      totalPrice := item.price * item.quantity }

/-- The `orderItems.reduce((sum, item) => sum + item.totalPrice, 0)` of line 105. -/
def subtotalOf (items : List OrderItem) : ℚ :=
  items.foldl (fun sum item => sum + item.totalPrice) 0

/-- Line 106: `subtotal * 0.1`. -/
def taxOf (subtotal : ℚ) : ℚ := subtotal * 0.1

/-- Line 107: `subtotal > 100 ? 0 : 10`. -/
def shippingOf (subtotal : ℚ) : ℚ := if subtotal > 100 then 0 else 10

/-- Modelled from the spec: the default of `status` in the schema of `models/Order` (not
among the sources); an order is persisted with status `pending`. -/
def defaultStatus : String := "pending"

/-- The `new Order({ ... })` of lines 111-121; `orderNumber` and `status` are filled in by the
schema, the dates and the cancellation reason are not set. -/
def buildOrder (env : Env) (user : Nat) (items : List CartItem) (body : OrderBody) : Order :=
  let orderItems := orderItems items
  let subtotal := subtotalOf orderItems
  let tax := taxOf subtotal
  let shipping := shippingOf subtotal
  let total := subtotal + tax + shipping
  { user := user
    items := orderItems
    subtotal := subtotal
    tax := tax
    shipping := shipping
    total := total
    paymentMethod := body.paymentMethod
    shippingAddress := body.shippingAddress
    notes := body.notes
    orderNumber := env.orderNumber
    status := defaultStatus
    cancelledAt := none
    cancellationReason := none
    deliveredAt := none }

/-- A failure response `{ success: false, message }`. -/
def failure (status : Nat) (message : String) : Response :=
  { status := status, success := false, message := message, order := none }

/-- The handler of `router.post('/')` for the authenticated caller `user`: the response and
the writes issued. -/
def postOrders (env : Env) (db : Db) (user : Nat) (body : OrderBody) :
    Response × List Write :=
  match db.carts user with
  | none => (failure 400 "Cart is empty", [])
  | some cart =>
    if cart.items.length = 0 then (failure 400 "Cart is empty", [])
    else
      match validateStock db.products cart.items with
      | .insufficient name => (failure 400 ("Insufficient stock for " ++ name), [])
      | .threw => (failure 500 "Error creating order", [])
      | .ok =>
        let order := buildOrder env user cart.items body
        ({ status := 201
           success := true
           message := "Order created successfully"
           order := some { id := env.newOrderId
                           orderNumber := order.orderNumber
                           total := order.total
                           status := order.status } },
         [Write.orderSave env.newOrderId order]
           ++ cart.items.map (fun item => Write.productInc item.product (-item.quantity))
           ++ [Write.cartClear user])

/-- Response and database after a handler has run. -/
def run (db : Db) (r : Response × List Write) : Response × Db :=
  (r.1, applyWrites db r.2)

/-! ## `PUT /orders/:orderId/cancel` -/

/-- The handler of `router.put('/:orderId/cancel')` for the authenticated caller `user`;
`reason` is `req.body.reason`. -/
def putOrderCancel (env : Env) (db : Db) (user : Nat) (orderId : Nat)
    (reason : Option String) : Response × List Write :=
  match db.orders orderId with
  | none => (failure 404 "Order not found", [])
  | some order =>
    if order.user ≠ user then (failure 404 "Order not found", [])
    else if order.status ≠ "pending" then
      (failure 400 "Only pending orders can be cancelled", [])
    else
      ({ status := 200, success := true, message := "Order cancelled successfully",
         order := none },
       [Write.orderSave orderId
          { order with status := "cancelled"
                       cancelledAt := some env.now
                       cancellationReason := reason }]
         ++ order.items.map (fun item => Write.productInc item.product item.quantity))

/-! ## `PUT /orders/:orderId/status` -/

/-- The handler of `router.put('/:orderId/status')`, reached after `authenticateToken` and
`adminOnly`; `status` is `req.body.status`. -/
def putOrderStatus (env : Env) (db : Db) (orderId : Nat) (status : String) :
    Response × List Write :=
  match db.orders orderId with
  | none => (failure 404 "Order not found", [])
  | some order =>
    ({ status := 200, success := true, message := "Order status updated successfully",
       order := none },
     [Write.orderSave orderId
        { order with status := status
                     deliveredAt := if status = "delivered" then some env.now
                                    else order.deliveredAt }])

/-! ## Derived quantities used in the statements -/

/-- Total of the deltas `g x` over the entries of `xs` that reference product `pid`. -/
def deltaFor {α : Type} (f : α → Nat) (g : α → ℚ) (pid : Nat) (xs : List α) : ℚ :=
  ((xs.filter (fun x => f x = pid)).map g).sum

/-- The writes of a successful order creation, in the order they are issued. -/
def createdWrites (env : Env) (user : Nat) (cart : Cart) (body : OrderBody) : List Write :=
  [Write.orderSave env.newOrderId (buildOrder env user cart.items body)]
    ++ cart.items.map (fun item => Write.productInc item.product (-item.quantity))
    ++ [Write.cartClear user]

/-- The 201 response of a successful order creation. -/
def createdResponse (env : Env) (user : Nat) (cart : Cart) (body : OrderBody) : Response :=
  { status := 201
    success := true
    message := "Order created successfully"
    order := some { id := env.newOrderId
                    orderNumber := (buildOrder env user cart.items body).orderNumber
                    total := (buildOrder env user cart.items body).total
                    status := (buildOrder env user cart.items body).status } }

/-- The writes of a successful cancellation, in the order they are issued. -/
def cancelWrites (env : Env) (orderId : Nat) (reason : Option String) (order : Order) :
    List Write :=
  [Write.orderSave orderId
      { order with status := "cancelled"
                   cancelledAt := some env.now
                   cancellationReason := reason }]
    ++ order.items.map (fun item => Write.productInc item.product item.quantity)

/-! ## Authentication middleware -/

/-- The user document as attached to `req.user`: fetched with `.select('-password')`, so
without the password hash. -/
structure User where
  _id : Nat
  role : String
  isEmailVerified : Bool
  lockUntil : Option Nat
  deriving DecidableEq

/-- The query `User.findById(id).select('-password')`. -/
def User.findById (users : Nat → Option UserDoc) (id : Nat) : Option User :=
  (users id).map fun doc =>
    { _id := id
      role := doc.role
      isEmailVerified := doc.isEmailVerified
      lockUntil := doc.lockUntil }

/-- Modelled from the spec: `user.isAccountLocked()` of `models/User` (not among the
sources): the account is locked when its lock timestamp is in the future. -/
def User.isAccountLocked (now : Nat) (user : User) : Bool :=
  match user.lockUntil with
  | some t => decide (now < t)
  | none => false

/-- The `name` of the error thrown by `jwt.verify`. -/
inductive JwtError where
  | TokenExpiredError
  | JsonWebTokenError
  | NotBeforeError
  deriving DecidableEq

/-- What the middleware receives from outside: `jwt.verify(·, process.env.JWT_SECRET)`, giving
the decoded `userId` or throwing, and the clock. -/
structure AuthEnv where
  verify : String → Except JwtError Nat
  now : Nat

/-- The session object `req.session`. -/
structure Session where
  userId : Option Nat
  deriving DecidableEq

/-- The parts of the request the middleware reads and writes. -/
structure Request where
  authorization : Option String
  session : Option Session
  user : Option User
  deriving DecidableEq

/-- What a middleware does with the request: call `next()` or send a response. -/
inductive Outcome where
  | next
  | respond (status : Nat) (message : String)
  deriving DecidableEq

/-- The request as the middleware leaves it, and what it did. -/
structure MwResult where
  req : Request
  outcome : Outcome
  deriving DecidableEq

/-- JavaScript `s.split(' ')` on the characters of `s`. -/
def splitSpace : List Char → List (List Char)
  | [] => [[]]
  | c :: cs =>
    if c = ' ' then [] :: splitSpace cs
    else
      match splitSpace cs with
      | [] => [[c]]
      | w :: ws => (c :: w) :: ws

/-- Line 8 of auth.js: `authHeader && authHeader.split(' ')[1]`; `none` is `undefined`. -/
def headerToken (authHeader : Option String) : Option String :=
  match authHeader with
  | none => none
  | some h =>
    if h = "" then some ""
    else ((splitSpace h.data)[1]?).map String.mk

/-- The middleware `authenticateToken` of auth.js. -/
def authenticateToken (env : AuthEnv) (db : Db) (req : Request) : MwResult :=
  match headerToken req.authorization with
  | none => { req := req, outcome := .respond 401 "Access token required" }
  | some token =>
    if token = "" then { req := req, outcome := .respond 401 "Access token required" }
    else
      match env.verify token with
      | .error e =>
        if e = JwtError.TokenExpiredError then
          { req := req, outcome := .respond 401 "Token expired" }
        else { req := req, outcome := .respond 403 "Invalid token" }
      | .ok userId =>
        match User.findById db.users userId with
        | none => { req := req, outcome := .respond 401 "User not found" }
        | some user =>
          if user.isAccountLocked env.now then
            { req := req
              outcome := .respond 423 "Account is temporarily locked due to multiple failed login attempts. Please try again in 5 minutes." }
          else { req := { req with user := some user }, outcome := .next }

/-- The middleware factory `authorizeRoles(...roles)` of auth.js. -/
def authorizeRoles (roles : List String) (req : Request) : MwResult :=
  match req.user with
  | none => { req := req, outcome := .respond 401 "Authentication required" }
  | some user =>
    if ¬ user.role ∈ roles then
      { req := req, outcome := .respond 403 "Access denied. Insufficient permissions." }
    else { req := req, outcome := .next }

/-- The middleware `authorizeRoles('admin')`. -/
def adminOnly : Request → MwResult := authorizeRoles ["admin"]

/-- The middleware `authorizeRoles('doctor')`. -/
def doctorOnly : Request → MwResult := authorizeRoles ["doctor"]

/-- The middleware `authorizeRoles('patient')`. -/
def patientOnly : Request → MwResult := authorizeRoles ["patient"]

/-- The middleware `authorizeRoles('admin', 'doctor')`. -/
def adminOrDoctor : Request → MwResult := authorizeRoles ["admin", "doctor"]

/-- Lines 17-19 of sessionAuth.js: `authHeader && authHeader.startsWith('Bearer ')`, then
`authHeader.substring(7)`. -/
def bearerToken (authHeader : Option String) : Option String :=
  match authHeader with
  | none => none
  | some h =>
    if "Bearer ".data.isPrefixOf h.data then some (String.mk (h.data.drop 7)) else none

/-- Lines 8-14 of sessionAuth.js: the user the session resolves to, if any. -/
def sessionUser (db : Db) (req : Request) : Option User :=
  match req.session with
  | none => none
  | some session =>
    match session.userId with
    | none => none
    | some userId => User.findById db.users userId

/-- The middleware `sessionAuth` of sessionAuth.js.  When the token resolves to a user but
the request has no session object, `req.user` has been assigned before the assignment to
`req.session.userId` throws inside the inner `try`, whose `catch` only logs. -/
def sessionAuth (env : AuthEnv) (db : Db) (req : Request) : MwResult :=
  match sessionUser db req with
  | some user => { req := { req with user := some user }, outcome := .next }
  | none =>
    match bearerToken req.authorization with
    | none => { req := req, outcome := .respond 401 "Authentication required" }
    | some token =>
      match env.verify token with
      | .error _ => { req := req, outcome := .respond 401 "Authentication required" }
      | .ok userId =>
        match User.findById db.users userId with
        | none => { req := req, outcome := .respond 401 "Authentication required" }
        | some user =>
          match req.session with
          | some session =>
            { req := { req with user := some user
                                session := some { session with userId := some user._id } }
              outcome := .next }
          | none =>
            { req := { req with user := some user }
              outcome := .respond 401 "Authentication required" }

/-- The middleware `optionalSessionAuth` of sessionAuth.js: the steps of `sessionAuth`, but
where that one answers 401 this one executes `req.user = null; next()`.  Without a session
object the assignment to `req.session.userId` throws after `req.user = user`; the inner
`catch` logs and the fall-through resets `req.user` to `null`. -/
def optionalSessionAuth (env : AuthEnv) (db : Db) (req : Request) : MwResult :=
  match sessionUser db req with
  | some user => { req := { req with user := some user }, outcome := .next }
  | none =>
    match bearerToken req.authorization with
    | none => { req := { req with user := none }, outcome := .next }
    | some token =>
      match env.verify token with
      | .error _ => { req := { req with user := none }, outcome := .next }
      | .ok userId =>
        match User.findById db.users userId with
        | none => { req := { req with user := none }, outcome := .next }
        | some user =>
          match req.session with
          | some session =>
            { req := { req with user := some user
                                session := some { session with userId := some user._id } }
              outcome := .next }
          | none => { req := { req with user := none }, outcome := .next }

/-- HTTP status of the response a middleware sent, if it sent one. -/
def Outcome.status : Outcome → Option Nat
  | .next => none
  | .respond status _ => some status

/-! ## Input sanitization (`utils/validation.js`) -/

/-- The argument of `sanitizeInput`: a string, or some value whose `typeof` is not
`'string'`. -/
inductive JsValue where
  | string (s : String)
  | number (n : ℚ)
  | boolean (b : Bool)
  | null
  | undefined
  | object (ref : Nat)
  deriving DecidableEq

/-- The call `input.replace(re, '')` for a global regular expression `re` none of whose
matches is empty, on the characters of `input`: `matchAt rest` is the length of the match of
`re` that starts at the head of `rest`, if there is one.  The scan goes left to right; a match
is dropped and the scan resumes behind it (`skip` counts the characters of the current match
still to drop); where nothing matches the character is kept. -/
def removeMatches (matchAt : List Char → Option Nat) : Nat → List Char → List Char
  | _, [] => []
  | skip + 1, _ :: cs => removeMatches matchAt skip cs
  | 0, c :: cs =>
    match matchAt (c :: cs) with
    | some (m + 1) => removeMatches matchAt m cs
    | _ => c :: removeMatches matchAt 0 cs

/-- Number of characters before the first `>`, if there is one: what `[^>]*` consumes when
`>` follows. -/
def findClose : List Char → Option Nat
  | [] => none
  | c :: cs => if c = '>' then some 0 else (findClose cs).map (· + 1)

/-- Match of `/<[^>]*>/` at the head of the input: a `<`, the characters up to the first `>`,
and that `>`. -/
def tagAt : List Char → Option Nat
  | [] => none
  | c :: cs => if c = '<' then (findClose cs).map (· + 2) else none

/-- Whether the input starts with the pattern, ignoring case: `pattern` is given in lower
case, and a character matches a pattern character when it is that character or its upper-case
form (the `i` flag without the `u` flag folds ASCII letters only onto ASCII letters). -/
def startsWithIgnoreCase : List Char → List Char → Bool
  | [], _ => true
  | _ :: _, [] => false
  | p :: ps, c :: cs => (c = p || c = p.toUpper) && startsWithIgnoreCase ps cs

/-- Word characters of `\b`: `[A-Za-z0-9_]`. -/
def isWordChar (c : Char) : Bool := c.isAlphanum || c = '_'

/-- Number of characters before the first place where `</script>` starts, ignoring case. -/
def findCloseScript : List Char → Option Nat
  | [] => none
  | c :: cs =>
    if startsWithIgnoreCase "</script>".data (c :: cs) then some 0
    else (findCloseScript cs).map (· + 1)

/-- Match of `/<script\b[^<]*(?:(?!<\/script>)<[^<]*)*<\/script>/i` at the head of the
input: `<script` followed by a word boundary (the next character is not a word character),
then everything up to and including the first `</script>`; the group cannot step over a `<`
that starts `</script>`, so the match ends at the first one. -/
def scriptAt (cs : List Char) : Option Nat :=
  if startsWithIgnoreCase "<script".data cs then
    match cs.drop 7 with
    | [] => none
    | c :: rest =>
      if isWordChar c then none
      else (findCloseScript (c :: rest)).map (· + 16)
  else none

/-- Match of `/[<>]/` at the head of the input. -/
def angleAt : List Char → Option Nat
  | [] => none
  | c :: _ => if c = '<' ∨ c = '>' then some 1 else none

/-- Characters stripped by `String.prototype.trim`: WhiteSpace and LineTerminator of
ECMAScript. -/
def isWhiteSpace (c : Char) : Bool :=
  (9 ≤ c.toNat && c.toNat ≤ 13) || c.toNat == 0x20 || c.toNat == 0xA0 || c.toNat == 0x1680
    || (0x2000 ≤ c.toNat && c.toNat ≤ 0x200A) || c.toNat == 0x2028 || c.toNat == 0x2029
    || c.toNat == 0x202F || c.toNat == 0x205F || c.toNat == 0x3000 || c.toNat == 0xFEFF

/-- The method `input.trim()` on the characters of `input`. -/
def trim (cs : List Char) : List Char :=
  (cs.dropWhile isWhiteSpace).rdropWhile isWhiteSpace

/-- The string branch of `sanitizeInput`, lines 48-56, on the characters of the input. -/
def sanitizeChars (input : List Char) : List Char :=
  let input := removeMatches tagAt 0 input
  let input := removeMatches scriptAt 0 input
  let input := removeMatches angleAt 0 input
  trim input

/-- The function `sanitizeInput` of validation.js. -/
def sanitizeInput (input : JsValue) : JsValue :=
  match input with
  | .string s => .string (String.mk (sanitizeChars s.data))
  | other => other

/-! ## A concrete snapshot used to exercise the handlers -/

/-- Users 1 (admin), 2 (patient, locked until 2000) and 3 (doctor). -/
def authDb : Db :=
  { products := fun _ => none
    carts := fun _ => none
    orders := fun _ => none
    users := fun k =>
      if k = 1 then
        some { role := "admin", isEmailVerified := true, lockUntil := none, password := "h1" }
      else if k = 2 then
        some { role := "patient", isEmailVerified := true, lockUntil := some 2000,
               password := "h2" }
      else if k = 3 then
        some { role := "doctor", isEmailVerified := true, lockUntil := some 500,
               password := "h3" }
      else none }

/-- A verifier that accepts `t1`, `t2`, `t3` for users 1, 2, 3, reports `old` as expired and
rejects everything else; the clock reads 1000. -/
def authEnv : AuthEnv :=
  { verify := fun token =>
      if token = "t1" then .ok 1
      else if token = "t2" then .ok 2
      else if token = "t3" then .ok 3
      else if token = "old" then .error JwtError.TokenExpiredError
      else .error JwtError.JsonWebTokenError
    now := 1000 }

/-- Two products, the cart of user 7 (in stock) and the cart of user 8 (second and third line
short of stock), an empty cart for user 9. -/
def demoDb : Db :=
  { products := fun k =>
      if k = 1 then some { name := "Aspirin", stock := 5 }
      else if k = 2 then some { name := "Bandage", stock := 3 }
      else none
    carts := fun k =>
      if k = 7 then some { items := [⟨1, 2, 10⟩, ⟨2, 1, 5⟩] }
      else if k = 8 then some { items := [⟨1, 2, 10⟩, ⟨2, 4, 5⟩, ⟨1, 9, 10⟩] }
      else if k = 9 then some { items := [] }
      else none
    orders := fun _ => none
    users := fun _ => none }

/-- An order of user 7 with one line item (3 of product 1) in the given status. -/
def demoOrder (status : String) : Order :=
  { user := 7
    items := [{ product := 1, quantity := 3, price := 10, totalPrice := 30 }]
    subtotal := 30
    tax := 3
    shipping := 10
    total := 43
    paymentMethod := some "card"
    shippingAddress := some "1 Main St"
    notes := none
    orderNumber := "ORD-50"
    status := status
    cancelledAt := none
    cancellationReason := none
    deliveredAt := none }

/-- The products of `demoDb` with order 50 (pending) and order 51 (shipped) of user 7. -/
def cancelDb : Db :=
  { demoDb with
    orders := fun k =>
      if k = 50 then some (demoOrder "pending")
      else if k = 51 then some (demoOrder "shipped")
      else none }

/-- Environment of the concrete runs. -/
def demoEnv : Env := { newOrderId := 100, orderNumber := "ORD-100", now := 1000 }

/-- Request body of the concrete runs. -/
def demoBody : OrderBody :=
  { shippingAddress := some "1 Main St", paymentMethod := some "card", notes := none }

/-- A request with an empty session object carrying the valid token of user 2, whose account
is locked until 2000 while the clock of `authEnv` reads 1000. -/
def lockedRequest : Request :=
  { authorization := some "Bearer t2", session := some { userId := none }, user := none }

/-- The snapshot `demoDb` with two more carts: user 10 has a line for product 1 followed by a
line for product 3, which is not in the store; user 11 has two lines of 3 units each, both for
product 1 (stock 5). -/
def edgeDb : Db :=
  { demoDb with
    carts := fun k =>
      if k = 10 then some { items := [⟨1, 2, 10⟩, ⟨3, 1, 5⟩] }
      else if k = 11 then some { items := [⟨1, 3, 10⟩, ⟨1, 3, 10⟩] }
      else demoDb.carts k }

/-! ## Helper lemmas -/

theorem applyWrites_nil (db : Db) : applyWrites db [] = db := rfl

theorem applyWrites_cons (db : Db) (w : Write) (ws : List Write) :
    applyWrites db (w :: ws) = applyWrites (w.apply db) ws := rfl

theorem applyWrites_append (db : Db) (ws vs : List Write) :
    applyWrites db (ws ++ vs) = applyWrites (applyWrites db ws) vs := by
  simp [applyWrites, List.foldl_append]

theorem deltaFor_nil {α : Type} (f : α → Nat) (g : α → ℚ) (pid : Nat) :
    deltaFor f g pid [] = 0 := rfl

theorem deltaFor_cons {α : Type} (f : α → Nat) (g : α → ℚ) (pid : Nat) (x : α)
    (xs : List α) :
    deltaFor f g pid (x :: xs) = (if f x = pid then g x else 0) + deltaFor f g pid xs := by
  unfold deltaFor
  by_cases h : f x = pid <;> simp [List.filter_cons, h]

/-- A run of stock increments leaves carts, orders and users alone and adds to each product
the total of the deltas addressed to it. -/
theorem applyWrites_productInc {α : Type} (f : α → Nat) (g : α → ℚ) (xs : List α) (db : Db) :
    (applyWrites db (xs.map (fun x => Write.productInc (f x) (g x)))).carts = db.carts ∧
    (applyWrites db (xs.map (fun x => Write.productInc (f x) (g x)))).orders = db.orders ∧
    (applyWrites db (xs.map (fun x => Write.productInc (f x) (g x)))).users = db.users ∧
    ∀ pid, (applyWrites db (xs.map (fun x => Write.productInc (f x) (g x)))).products pid
      = (db.products pid).map (fun p => { p with stock := p.stock + deltaFor f g pid xs }) := by
  induction xs generalizing db with
  | nil =>
    refine ⟨rfl, rfl, rfl, fun pid => ?_⟩
    cases h : db.products pid <;> simp [applyWrites_nil, deltaFor_nil, h]
  | cons x xs ih =>
    simp only [List.map_cons, applyWrites_cons]
    obtain ⟨hc, ho, hu, hp⟩ := ih ((Write.productInc (f x) (g x)).apply db)
    refine ⟨by rw [hc]; rfl, by rw [ho]; rfl, by rw [hu]; rfl, fun pid => ?_⟩
    rw [hp pid, deltaFor_cons]
    simp only [Write.apply, incStock]
    by_cases h : pid = f x
    · rw [h]
      cases hq : db.products (f x) <;> simp [add_assoc]
    · have h2 : ¬ f x = pid := fun e => h e.symm
      cases hq : db.products pid <;> simp [h, h2]

/-- What a passed stock check says about every cart line. -/
theorem validateStock_ok (products : Nat → Option Product) (items : List CartItem)
    (h : validateStock products items = .ok) :
    ∀ l ∈ items, ∃ p, products l.product = some p ∧ l.quantity ≤ p.stock := by
  induction items with
  | nil => intro l hl; cases hl
  | cons x xs ih =>
    intro l hl
    unfold validateStock at h
    cases hp : products x.product with
    | none => simp [hp] at h
    | some p =>
      simp only [hp] at h
      by_cases hlt : p.stock < x.quantity
      · simp [hlt] at h
      · simp only [hlt, if_false] at h
        rcases List.mem_cons.mp hl with rfl | hmem
        · exact ⟨p, hp, not_lt.mp hlt⟩
        · exact ih h l hmem

/-- The stock check reports the first line whose product is short of stock, provided every
earlier line passes. -/
theorem validateStock_first (products : Nat → Option Product) (pre post : List CartItem)
    (l : CartItem) (p : Product)
    (hpre : ∀ x ∈ pre, ∃ q, products x.product = some q ∧ x.quantity ≤ q.stock)
    (hp : products l.product = some p) (hlt : p.stock < l.quantity) :
    validateStock products (pre ++ l :: post) = .insufficient p.name := by
  induction pre with
  | nil => simp [validateStock, hp, hlt]
  | cons x xs ih =>
    obtain ⟨q, hq, hle⟩ := hpre x (List.mem_cons_self _ _)
    have hx : ¬ q.stock < x.quantity := not_lt.mpr hle
    simp only [List.cons_append, validateStock, hq, hx, if_false]
    exact ih (fun y hy => hpre y (List.mem_cons_of_mem _ hy))

/-- A reported shortage comes from some line of the cart. -/
theorem validateStock_insufficient (products : Nat → Option Product) (items : List CartItem)
    (name : String) (h : validateStock products items = .insufficient name) :
    ∃ l ∈ items, ∃ p, products l.product = some p ∧ p.stock < l.quantity := by
  induction items with
  | nil => simp [validateStock] at h
  | cons x xs ih =>
    unfold validateStock at h
    cases hp : products x.product with
    | none => simp [hp] at h
    | some p =>
      simp only [hp] at h
      by_cases hlt : p.stock < x.quantity
      · exact ⟨x, List.mem_cons_self _ _, p, hp, hlt⟩
      · simp only [hlt, if_false] at h
        obtain ⟨l, hl, q, hq, hql⟩ := ih h
        exact ⟨l, List.mem_cons_of_mem _ hl, q, hq, hql⟩

/-- With every referenced product present the stock check never throws. -/
theorem validateStock_ne_threw (products : Nat → Option Product) (items : List CartItem)
    (hex : ∀ l ∈ items, (products l.product).isSome) :
    validateStock products items ≠ .threw := by
  induction items with
  | nil => simp [validateStock]
  | cons x xs ih =>
    unfold validateStock
    cases hp : products x.product with
    | none =>
      have := hex x (List.mem_cons_self _ _)
      simp [hp] at this
    | some p =>
      by_cases hlt : p.stock < x.quantity
      · simp [hlt]
      · simp only [hlt, if_false]
        exact ih (fun l hl => hex l (List.mem_cons_of_mem _ hl))

theorem message_ne_cart_empty (name : String) :
    "Cart is empty" ≠ "Insufficient stock for " ++ name := by
  intro h
  have := congrArg String.data h
  simp at this

/-- The handler answers 201 exactly on the path that passed both guards. -/
theorem postOrders_created (env : Env) (db : Db) (user : Nat) (body : OrderBody)
    (h : (postOrders env db user body).1.status = 201) :
    ∃ cart, db.carts user = some cart ∧ cart.items ≠ [] ∧
      validateStock db.products cart.items = .ok ∧
      postOrders env db user body
        = (createdResponse env user cart body, createdWrites env user cart body) := by
  unfold postOrders at h ⊢
  cases hc : db.carts user with
  | none => simp [hc, failure] at h
  | some cart =>
    simp only [hc] at h ⊢
    by_cases hlen : cart.items.length = 0
    · simp [hlen, failure] at h
    · simp only [hlen, if_false] at h ⊢
      cases hv : validateStock db.products cart.items with
      | insufficient name => simp [hv, failure] at h
      | threw => simp [hv, failure] at h
      | ok =>
        refine ⟨cart, rfl, ?_, hv, rfl⟩
        intro hnil; exact hlen (by simp [hnil])

/-- The database after the writes of a successful order creation. -/
theorem applyWrites_created (env : Env) (db : Db) (user : Nat) (cart : Cart)
    (body : OrderBody) :
    (applyWrites db (createdWrites env user cart body)).orders
        = (fun k => if k = env.newOrderId then some (buildOrder env user cart.items body)
                    else db.orders k) ∧
    (applyWrites db (createdWrites env user cart body)).carts = clearCart db.carts user ∧
    (applyWrites db (createdWrites env user cart body)).users = db.users ∧
    ∀ pid, (applyWrites db (createdWrites env user cart body)).products pid
      = (db.products pid).map (fun p =>
          { p with stock := p.stock
              + deltaFor CartItem.product (fun item => -item.quantity) pid cart.items }) := by
  unfold createdWrites
  rw [applyWrites_append, applyWrites_append]
  obtain ⟨hc, ho, hu, hp⟩ := applyWrites_productInc CartItem.product
    (fun item => -item.quantity) cart.items
    (applyWrites db [Write.orderSave env.newOrderId (buildOrder env user cart.items body)])
  refine ⟨?_, ?_, ?_, fun pid => ?_⟩
  · exact ho.trans rfl
  · exact (congrArg (fun c => clearCart c user) hc).trans rfl
  · exact hu.trans rfl
  · exact (hp pid).trans rfl

theorem deltaFor_neg {α : Type} (f : α → Nat) (g : α → ℚ) (pid : Nat) (xs : List α) :
    deltaFor f (fun x => -g x) pid xs = -deltaFor f g pid xs := by
  induction xs with
  | nil => simp [deltaFor_nil]
  | cons x xs ih =>
    rw [deltaFor_cons, deltaFor_cons, ih]
    by_cases h : f x = pid <;> simp [h, add_comm]

theorem deltaFor_eq_zero {α : Type} (f : α → Nat) (g : α → ℚ) (pid : Nat) (xs : List α)
    (h : ∀ x ∈ xs, f x ≠ pid) : deltaFor f g pid xs = 0 := by
  induction xs with
  | nil => rfl
  | cons x xs ih =>
    rw [deltaFor_cons, ih (fun y hy => h y (List.mem_cons_of_mem _ hy))]
    simp [h x (List.mem_cons_self _ _)]

/-! ## Order creation -/

/-- C2: when every cart line references an existing product, the handler answers
400 "Insufficient stock for <name>" exactly when some line asks for more than its product's
current stock; the name is that of the first such line; on this failure the database is
unchanged; and every line item of a created order has quantity at most the stock read. -/
theorem postOrders_insufficient_stock (env : Env) (db : Db) (user : Nat) (body : OrderBody)
    (cart : Cart) (hcart : db.carts user = some cart)
    (hexists : ∀ l ∈ cart.items, (db.products l.product).isSome) :
    ((∃ name, (postOrders env db user body).1
        = failure 400 ("Insufficient stock for " ++ name)) ↔
      ∃ l ∈ cart.items, ∃ p, db.products l.product = some p ∧ p.stock < l.quantity) ∧
    (∀ pre l post p, cart.items = pre ++ l :: post →
      (∀ x ∈ pre, ∀ q, db.products x.product = some q → ¬ q.stock < x.quantity) →
      db.products l.product = some p → p.stock < l.quantity →
      (postOrders env db user body).1 = failure 400 ("Insufficient stock for " ++ p.name)) ∧
    (∀ name, (postOrders env db user body).1
        = failure 400 ("Insufficient stock for " ++ name) →
      (postOrders env db user body).2 = [] ∧ (run db (postOrders env db user body)).2 = db) ∧
    ((postOrders env db user body).1.status = 201 →
      ∃ order, (run db (postOrders env db user body)).2.orders env.newOrderId = some order ∧
        order.items.length = cart.items.length ∧
        ∀ it ∈ order.items, ∃ p, db.products it.product = some p ∧ it.quantity ≤ p.stock) := by
  have hfirst : ∀ pre l post p, cart.items = pre ++ l :: post →
      (∀ x ∈ pre, ∀ q, db.products x.product = some q → ¬ q.stock < x.quantity) →
      db.products l.product = some p → p.stock < l.quantity →
      postOrders env db user body
        = (failure 400 ("Insufficient stock for " ++ p.name), []) := by
    intro pre l post p hsplit hpre hp hlt
    have hv : validateStock db.products cart.items = .insufficient p.name := by
      rw [hsplit]
      refine validateStock_first db.products pre post l p (fun x hx => ?_) hp hlt
      have hxs := hexists x (by rw [hsplit]; exact List.mem_append_left _ hx)
      obtain ⟨q, hq⟩ := Option.isSome_iff_exists.mp hxs
      exact ⟨q, hq, not_lt.mp (hpre x hx q hq)⟩
    have hlen : ¬ cart.items.length = 0 := by rw [hsplit]; simp
    simp only [postOrders, hcart, hlen, if_false, hv]
  have hshape : ∀ name, (postOrders env db user body).1
        = failure 400 ("Insufficient stock for " ++ name) →
      validateStock db.products cart.items = .insufficient name ∧
      (postOrders env db user body).2 = [] := by
    intro name h
    unfold postOrders at h ⊢
    simp only [hcart] at h ⊢
    by_cases hlen : cart.items.length = 0
    · simp only [hlen, if_true, failure, Response.mk.injEq] at h
      exact absurd h.2.2.1 (message_ne_cart_empty name)
    · simp only [hlen, if_false] at h ⊢
      cases hv : validateStock db.products cart.items with
      | ok => simp [hv, failure] at h
      | threw => simp [hv, failure] at h
      | insufficient name2 =>
        simp only [hv, failure, Response.mk.injEq] at h
        have hd := congrArg String.data h.2.2.1
        simp only [String.data_append, List.append_cancel_left_eq] at hd
        have hn : name2 = name := String.ext hd
        subst hn
        exact ⟨rfl, rfl⟩
  refine ⟨⟨?_, ?_⟩, ?_, ?_, ?_⟩
  · rintro ⟨name, h⟩
    exact validateStock_insufficient db.products cart.items name (hshape name h).1
  · rintro ⟨l, hl, p, hp, hlt⟩
    have hne : ¬ cart.items.length = 0 := by
      intro h0
      rw [List.length_eq_zero.mp h0] at hl
      cases hl
    cases hv : validateStock db.products cart.items with
    | ok =>
      obtain ⟨q, hq, hle⟩ := validateStock_ok db.products cart.items hv l hl
      rw [hp] at hq
      cases hq
      exact absurd hlt (not_lt.mpr hle)
    | threw => exact absurd hv (validateStock_ne_threw db.products cart.items hexists)
    | insufficient name =>
      refine ⟨name, ?_⟩
      simp only [postOrders, hcart, hne, if_false, hv]
  · intro pre l post p hsplit hpre hp hlt
    rw [hfirst pre l post p hsplit hpre hp hlt]
  · intro name h
    have h2 := (hshape name h).2
    refine ⟨h2, ?_⟩
    unfold run
    rw [h2]
    rfl
  · intro hcreated
    obtain ⟨cart2, hc2, -, hok, heq⟩ := postOrders_created env db user body hcreated
    have hcc : cart2 = cart := by rw [hcart] at hc2; exact (Option.some.inj hc2).symm
    subst hcc
    refine ⟨buildOrder env user cart2.items body, ?_, ?_, ?_⟩
    · rw [heq]
      show (applyWrites db (createdWrites env user cart2 body)).orders env.newOrderId = _
      rw [(applyWrites_created env db user cart2 body).1]
      simp
    · show (orderItems cart2.items).length = _
      simp [orderItems]
    · intro it hit
      have hit2 : it ∈ orderItems cart2.items := hit
      unfold orderItems at hit2
      obtain ⟨l, hl, rfl⟩ := List.mem_map.mp hit2
      exact validateStock_ok db.products cart2.items hok l hl

/-- Witness for C2: the cart of user 8, whose second line (Bandage, 4 of 3) is the first that
is short of stock, the third line being short as well. -/
theorem postOrders_insufficient_stock_witness :
    (postOrders demoEnv demoDb 8 demoBody).1
      = failure 400 ("Insufficient stock for " ++ "Bandage") :=
  (postOrders_insufficient_stock demoEnv demoDb 8 demoBody
      { items := [⟨1, 2, 10⟩, ⟨2, 4, 5⟩, ⟨1, 9, 10⟩] } rfl (by decide)).2.1
    [⟨1, 2, 10⟩] ⟨2, 4, 5⟩ [⟨1, 9, 10⟩] { name := "Bandage", stock := 3 } rfl
    (by
      intro x hx q hq
      obtain rfl := List.mem_singleton.mp hx
      have hq2 : some ({ name := "Aspirin", stock := 5 } : Product) = some q := hq
      cases hq2
      decide)
    rfl (by decide)

/-- C3: when the caller has no cart or a cart with zero line items, the handler answers
400 "Cart is empty", issues no write, and the database (orders, stock, carts) is unchanged. -/
theorem postOrders_empty_cart (env : Env) (db : Db) (user : Nat) (body : OrderBody)
    (h : db.carts user = none ∨ ∃ cart, db.carts user = some cart ∧ cart.items.length = 0) :
    (postOrders env db user body).1 = failure 400 "Cart is empty" ∧
    (postOrders env db user body).1.status = 400 ∧
    (postOrders env db user body).2 = [] ∧
    (run db (postOrders env db user body)).2 = db := by
  have key : postOrders env db user body = (failure 400 "Cart is empty", []) := by
    rcases h with h | ⟨cart, hc, hlen⟩
    · simp only [postOrders, h]
    · simp only [postOrders, hc, hlen, if_true]
  unfold run
  rw [key]
  exact ⟨rfl, rfl, rfl, rfl⟩

/-- Witness for C3: user 9 has a cart with no line items. -/
theorem postOrders_empty_cart_witness :
    (postOrders demoEnv demoDb 9 demoBody).1 = failure 400 "Cart is empty" ∧
    (run demoDb (postOrders demoEnv demoDb 9 demoBody)).2 = demoDb :=
  let h := postOrders_empty_cart demoEnv demoDb 9 demoBody
    (Or.inr ⟨{ items := [] }, rfl, rfl⟩)
  ⟨h.1, h.2.2.2⟩

/-- C4: after a successful order creation each product's stock is its former stock minus the
quantities of the cart lines referencing it, products outside the cart keep their stock, the
writes are the order save, then one decrement per cart line, then the cart clear (which
empties the cart), and the 201 response carries id, orderNumber, total and status of the
persisted order. -/
theorem postOrders_success_effects (env : Env) (db : Db) (user : Nat) (body : OrderBody)
    (hcreated : (postOrders env db user body).1.status = 201) :
    ∃ cart order, db.carts user = some cart ∧
      (run db (postOrders env db user body)).2.orders env.newOrderId = some order ∧
      (∀ pid, (run db (postOrders env db user body)).2.products pid
        = (db.products pid).map (fun p => { p with stock := p.stock
            - ((cart.items.filter (fun l => l.product = pid)).map CartItem.quantity).sum })) ∧
      (∀ pid, (∀ l ∈ cart.items, l.product ≠ pid) →
        (run db (postOrders env db user body)).2.products pid = db.products pid) ∧
      (postOrders env db user body).2
        = [Write.orderSave env.newOrderId order]
            ++ cart.items.map (fun l => Write.productInc l.product (-l.quantity))
            ++ [Write.cartClear user] ∧
      (run db (postOrders env db user body)).2.carts user = some { items := [] } ∧
      (postOrders env db user body).1.status = 201 ∧
      (postOrders env db user body).1.order
        = some { id := env.newOrderId, orderNumber := order.orderNumber,
                 total := order.total, status := order.status } := by
  obtain ⟨cart, hc, -, -, heq⟩ := postOrders_created env db user body hcreated
  obtain ⟨ho, hcarts, -, hp⟩ := applyWrites_created env db user cart body
  have hrun : (run db (postOrders env db user body)).2
      = applyWrites db (createdWrites env user cart body) := by
    unfold run; rw [heq]
  refine ⟨cart, buildOrder env user cart.items body, hc, ?_, ?_, ?_, ?_, ?_, hcreated, ?_⟩
  · rw [hrun, ho]; simp
  · intro pid
    rw [hrun, hp pid, deltaFor_neg]
    cases db.products pid <;> simp [deltaFor, sub_eq_add_neg]
  · intro pid hpid
    rw [hrun, hp pid, deltaFor_eq_zero _ _ _ _ hpid]
    cases db.products pid <;> simp
  · rw [heq]; rfl
  · rw [hrun, hcarts]
    simp [clearCart, hc]
  · rw [heq]; rfl

/-- Witness for C4: the order of user 7 takes 2 of product 1 and 1 of product 2. -/
theorem postOrders_success_effects_witness :
    ∃ cart order, demoDb.carts 7 = some cart ∧
      (run demoDb (postOrders demoEnv demoDb 7 demoBody)).2.orders 100 = some order ∧
      (run demoDb (postOrders demoEnv demoDb 7 demoBody)).2.carts 7 = some { items := [] } ∧
      (postOrders demoEnv demoDb 7 demoBody).1.status = 201 := by
  obtain ⟨cart, order, h1, h2, -, -, -, h6, h7, -⟩ :=
    postOrders_success_effects demoEnv demoDb 7 demoBody (by decide)
  exact ⟨cart, order, h1, h2, h6, h7⟩

/-! ## Order cancellation -/

/-- The handler on an order the caller owns, by status. -/
theorem putOrderCancel_owned (env : Env) (db : Db) (user : Nat) (orderId : Nat)
    (reason : Option String) (order : Order) (hfound : db.orders orderId = some order)
    (howner : order.user = user) :
    (order.status ≠ "pending" → putOrderCancel env db user orderId reason
        = (failure 400 "Only pending orders can be cancelled", [])) ∧
    (order.status = "pending" → putOrderCancel env db user orderId reason
        = ({ status := 200, success := true, message := "Order cancelled successfully",
             order := none }, cancelWrites env orderId reason order)) := by
  have hown : ¬ order.user ≠ user := fun h => h howner
  constructor
  · intro hs
    simp only [putOrderCancel, hfound, hown, if_false, hs, ne_eq, not_false_eq_true, if_true]
  · intro hs
    have hs2 : ¬ order.status ≠ "pending" := fun h => h hs
    simp only [putOrderCancel, hfound, hown, if_false, hs2, cancelWrites]

/-- The database after the writes of a successful cancellation. -/
theorem applyWrites_cancel (env : Env) (db : Db) (orderId : Nat) (reason : Option String)
    (order : Order) :
    (applyWrites db (cancelWrites env orderId reason order)).orders
        = (fun k => if k = orderId then
              some { order with status := "cancelled"
                                cancelledAt := some env.now
                                cancellationReason := reason }
            else db.orders k) ∧
    (applyWrites db (cancelWrites env orderId reason order)).carts = db.carts ∧
    ∀ pid, (applyWrites db (cancelWrites env orderId reason order)).products pid
      = (db.products pid).map (fun p =>
          { p with stock := p.stock
              + deltaFor OrderItem.product OrderItem.quantity pid order.items }) := by
  unfold cancelWrites
  rw [applyWrites_append]
  obtain ⟨hc, ho, -, hp⟩ := applyWrites_productInc OrderItem.product OrderItem.quantity
    order.items
    (applyWrites db [Write.orderSave orderId
      { order with status := "cancelled"
                   cancelledAt := some env.now
                   cancellationReason := reason }])
  exact ⟨ho.trans rfl, hc.trans rfl, fun pid => (hp pid).trans rfl⟩

/-- The handler answers 200 only for a pending order of the caller. -/
theorem putOrderCancel_ok (env : Env) (db : Db) (user : Nat) (orderId : Nat)
    (reason : Option String)
    (h : (putOrderCancel env db user orderId reason).1.status = 200) :
    ∃ order, db.orders orderId = some order ∧ order.user = user ∧
      order.status = "pending" := by
  unfold putOrderCancel at h
  cases ho : db.orders orderId with
  | none => simp [ho, failure] at h
  | some order =>
    simp only [ho] at h
    by_cases hu : order.user ≠ user
    · simp [hu, failure] at h
    · by_cases hs : order.status ≠ "pending"
      · simp [hu, hs, failure] at h
      · exact ⟨order, rfl, not_not.mp hu, not_not.mp hs⟩

/-- C5: for an order the caller owns whose status is not `pending` (so also for a `cancelled`
one) the cancel handler answers 400, issues no write and leaves the database (the order's
status, cancelledAt, cancellationReason and all stock) unchanged; for a `pending` one it
answers 200 and stores the order with status `cancelled`, cancelledAt the current time and
cancellationReason the request's reason. -/
theorem putOrderCancel_status_guard (env : Env) (db : Db) (user : Nat) (orderId : Nat)
    (reason : Option String) (order : Order) (hfound : db.orders orderId = some order)
    (howner : order.user = user) :
    (order.status ≠ "pending" →
      (putOrderCancel env db user orderId reason).1.status = 400 ∧
      (putOrderCancel env db user orderId reason).2 = [] ∧
      (run db (putOrderCancel env db user orderId reason)).2 = db) ∧
    (order.status = "cancelled" →
      (putOrderCancel env db user orderId reason).1.status = 400 ∧
      (run db (putOrderCancel env db user orderId reason)).2.orders orderId = some order ∧
      (run db (putOrderCancel env db user orderId reason)).2.products = db.products) ∧
    (order.status = "pending" →
      (putOrderCancel env db user orderId reason).1.status = 200 ∧
      (run db (putOrderCancel env db user orderId reason)).2.orders orderId
        = some { order with status := "cancelled"
                            cancelledAt := some env.now
                            cancellationReason := reason }) := by
  obtain ⟨hno, hyes⟩ := putOrderCancel_owned env db user orderId reason order hfound howner
  have hrej : order.status ≠ "pending" →
      (putOrderCancel env db user orderId reason).1.status = 400 ∧
      (putOrderCancel env db user orderId reason).2 = [] ∧
      (run db (putOrderCancel env db user orderId reason)).2 = db := by
    intro hs
    unfold run
    rw [hno hs]
    exact ⟨rfl, rfl, rfl⟩
  refine ⟨hrej, ?_, ?_⟩
  · intro hs
    have hne : order.status ≠ "pending" := by rw [hs]; decide
    obtain ⟨h1, -, h3⟩ := hrej hne
    refine ⟨h1, ?_, ?_⟩
    · rw [h3]; exact hfound
    · rw [h3]
  · intro hs
    unfold run
    rw [hyes hs]
    refine ⟨rfl, ?_⟩
    show (applyWrites db (cancelWrites env orderId reason order)).orders orderId = _
    rw [(applyWrites_cancel env db orderId reason order).1]
    simp

/-- Witness for C5: order 51 of user 7 is `shipped`; cancelling it is refused. -/
theorem putOrderCancel_status_guard_witness :
    (putOrderCancel demoEnv cancelDb 7 51 (some "changed my mind")).1.status = 400 ∧
    (run cancelDb (putOrderCancel demoEnv cancelDb 7 51 (some "changed my mind"))).2
      = cancelDb :=
  let h := (putOrderCancel_status_guard demoEnv cancelDb 7 51 (some "changed my mind")
    (demoOrder "shipped") rfl rfl).1 (by decide)
  ⟨h.1, h.2.2⟩

/-- C6: after a successful cancellation each product's stock is its former stock plus the
quantities of the order's line items referencing it, products outside the order keep their
stock, and an order with a single line item of quantity `q` raises that product's stock by
exactly `q`. -/
theorem putOrderCancel_restores_stock (env : Env) (db : Db) (user : Nat) (orderId : Nat)
    (reason : Option String) (order : Order) (hfound : db.orders orderId = some order)
    (hok : (putOrderCancel env db user orderId reason).1.status = 200) :
    order.status = "pending" ∧
    (∀ pid, (run db (putOrderCancel env db user orderId reason)).2.products pid
      = (db.products pid).map (fun p => { p with stock := p.stock
          + ((order.items.filter (fun it => it.product = pid)).map OrderItem.quantity).sum })) ∧
    (∀ pid, (∀ it ∈ order.items, it.product ≠ pid) →
      (run db (putOrderCancel env db user orderId reason)).2.products pid
        = db.products pid) ∧
    (∀ it p, order.items = [it] → db.products it.product = some p →
      (run db (putOrderCancel env db user orderId reason)).2.products it.product
        = some { p with stock := p.stock + it.quantity }) := by
  obtain ⟨order2, ho2, howner, hpending⟩ := putOrderCancel_ok env db user orderId reason hok
  have hoo : order2 = order := by rw [hfound] at ho2; exact (Option.some.inj ho2).symm
  subst hoo
  have heq := (putOrderCancel_owned env db user orderId reason order2 hfound howner).2 hpending
  have hrun : (run db (putOrderCancel env db user orderId reason)).2
      = applyWrites db (cancelWrites env orderId reason order2) := by
    unfold run; rw [heq]
  have hp := (applyWrites_cancel env db orderId reason order2).2.2
  refine ⟨hpending, ?_, ?_, ?_⟩
  · intro pid
    rw [hrun, hp pid]
    rfl
  · intro pid hpid
    rw [hrun, hp pid, deltaFor_eq_zero _ _ _ _ hpid]
    cases db.products pid <;> simp
  · intro it p hit hprod
    rw [hrun, hp it.product, hprod, hit]
    simp [deltaFor]

/-- Witness for C6: cancelling order 50 (3 of product 1, stock 5) leaves product 1 at 8. -/
theorem putOrderCancel_restores_stock_witness :
    (run cancelDb (putOrderCancel demoEnv cancelDb 7 50 none)).2.products 1
      = some { name := "Aspirin", stock := 5 + 3 } :=
  (putOrderCancel_restores_stock demoEnv cancelDb 7 50 none (demoOrder "pending") rfl
    (by decide)).2.2.2 { product := 1, quantity := 3, price := 10, totalPrice := 30 }
    { name := "Aspirin", stock := 5 } rfl rfl

/-! ## Authorization and authentication -/

/-- C7: `authorizeRoles(...roles)` answers 401 when no identity is attached, 403 when the
attached identity's role is not among `roles`, and calls `next` exactly when an identity is
attached whose role is among `roles`; `adminOnly`, `doctorOnly`, `patientOnly` and
`adminOrDoctor` allow exactly the roles admin, doctor, patient, and admin or doctor; the
outcome is determined by the attached identity and `roles`, and the request is left as is. -/
theorem authorizeRoles_decision (roles : List String) (req : Request) :
    (req.user = none →
      (authorizeRoles roles req).outcome = .respond 401 "Authentication required") ∧
    (∀ u, req.user = some u → u.role ∉ roles →
      (authorizeRoles roles req).outcome
        = .respond 403 "Access denied. Insufficient permissions.") ∧
    ((authorizeRoles roles req).outcome = .next ↔ ∃ u, req.user = some u ∧ u.role ∈ roles) ∧
    ((adminOnly req).outcome = .next ↔ ∃ u, req.user = some u ∧ u.role = "admin") ∧
    ((doctorOnly req).outcome = .next ↔ ∃ u, req.user = some u ∧ u.role = "doctor") ∧
    ((patientOnly req).outcome = .next ↔ ∃ u, req.user = some u ∧ u.role = "patient") ∧
    ((adminOrDoctor req).outcome = .next ↔
      ∃ u, req.user = some u ∧ (u.role = "admin" ∨ u.role = "doctor")) ∧
    (∀ req2 : Request, req2.user = req.user →
      (authorizeRoles roles req2).outcome = (authorizeRoles roles req).outcome) ∧
    (authorizeRoles roles req).req = req := by
  have key : ∀ (rs : List String) (r : Request),
      (authorizeRoles rs r).outcome = .next ↔ ∃ u, r.user = some u ∧ u.role ∈ rs := by
    intro rs r
    unfold authorizeRoles
    cases hu : r.user with
    | none => simp
    | some u =>
      by_cases hr : u.role ∈ rs <;> simp [hr]
  refine ⟨?_, ?_, key roles req, ?_, ?_, ?_, ?_, ?_, ?_⟩
  · intro hu
    simp [authorizeRoles, hu]
  · intro u hu hr
    simp [authorizeRoles, hu, hr]
  · simpa using key ["admin"] req
  · simpa using key ["doctor"] req
  · simpa using key ["patient"] req
  · simpa using key ["admin", "doctor"] req
  · intro req2 h
    unfold authorizeRoles
    rw [h]
    cases req.user with
    | none => rfl
    | some u => by_cases hr : u.role ∈ roles <;> simp [hr]
  · unfold authorizeRoles
    cases req.user with
    | none => rfl
    | some u => by_cases hr : u.role ∈ roles <;> simp [hr]

/-- The middleware `authenticateToken`, branch by branch. -/
theorem authenticateToken_cases (env : AuthEnv) (db : Db) (req : Request) :
    ((headerToken req.authorization = none ∨ headerToken req.authorization = some "") →
      authenticateToken env db req
        = { req := req, outcome := .respond 401 "Access token required" }) ∧
    (∀ token, headerToken req.authorization = some token → token ≠ "" →
      env.verify token = .error JwtError.TokenExpiredError →
      authenticateToken env db req = { req := req, outcome := .respond 401 "Token expired" }) ∧
    (∀ token e, headerToken req.authorization = some token → token ≠ "" →
      env.verify token = .error e → e ≠ JwtError.TokenExpiredError →
      authenticateToken env db req = { req := req, outcome := .respond 403 "Invalid token" }) ∧
    (∀ token userId, headerToken req.authorization = some token → token ≠ "" →
      env.verify token = .ok userId → User.findById db.users userId = none →
      authenticateToken env db req = { req := req, outcome := .respond 401 "User not found" }) ∧
    (∀ token userId user, headerToken req.authorization = some token → token ≠ "" →
      env.verify token = .ok userId → User.findById db.users userId = some user →
      user.isAccountLocked env.now = true →
      (authenticateToken env db req).req = req ∧
      (authenticateToken env db req).outcome.status = some 423) ∧
    (∀ token userId user, headerToken req.authorization = some token → token ≠ "" →
      env.verify token = .ok userId → User.findById db.users userId = some user →
      user.isAccountLocked env.now = false →
      authenticateToken env db req
        = { req := { req with user := some user }, outcome := .next }) := by
  refine ⟨?_, ?_, ?_, ?_, ?_, ?_⟩
  · rintro (h | h) <;> simp [authenticateToken, h]
  · intro token h1 h2 h3
    simp [authenticateToken, h1, h2, h3]
  · intro token e h1 h2 h3 h4
    simp [authenticateToken, h1, h2, h3, h4]
  · intro token userId h1 h2 h3 h4
    simp [authenticateToken, h1, h2, h3, h4]
  · intro token userId user h1 h2 h3 h4 h5
    simp [authenticateToken, h1, h2, h3, h4, h5, Outcome.status]
  · intro token userId user h1 h2 h3 h4 h5
    simp [authenticateToken, h1, h2, h3, h4, h5]

/-- Counterexample for C9 as stated: a supplied token whose verification fails for a reason
other than expiry is answered 403, not 401. -/
theorem authenticateToken_invalid_token_is_403 :
    headerToken (some "Bearer forged") = some "forged" ∧
    authEnv.verify "forged" = .error JwtError.JsonWebTokenError ∧
    (authenticateToken authEnv authDb
        { authorization := some "Bearer forged", session := none, user := none }).outcome
      = .respond 403 "Invalid token" ∧
    (authenticateToken authEnv authDb
        { authorization := some "Bearer forged", session := none, user := none }).outcome.status
      ≠ some 401 :=
  ⟨by decide, rfl, by decide, by decide⟩

/-- C9, amended: a missing token and an expired token are answered 401; a token whose
verification fails for any other reason is answered 403. -/
theorem authenticateToken_failure_status (env : AuthEnv) (db : Db) (req : Request) :
    ((headerToken req.authorization = none ∨ headerToken req.authorization = some "") →
      (authenticateToken env db req).outcome = .respond 401 "Access token required") ∧
    (∀ token, headerToken req.authorization = some token → token ≠ "" →
      env.verify token = .error JwtError.TokenExpiredError →
      (authenticateToken env db req).outcome = .respond 401 "Token expired") ∧
    (∀ token e, headerToken req.authorization = some token → token ≠ "" →
      env.verify token = .error e → e ≠ JwtError.TokenExpiredError →
      (authenticateToken env db req).outcome = .respond 403 "Invalid token") := by
  obtain ⟨c1, c2, c3, -, -, -⟩ := authenticateToken_cases env db req
  refine ⟨fun h => ?_, fun token h1 h2 h3 => ?_, fun token e h1 h2 h3 h4 => ?_⟩
  · rw [c1 h]
  · rw [c2 token h1 h2 h3]
  · rw [c3 token e h1 h2 h3 h4]

/-- C10: when the session carries a `userId` that resolves to a stored user, `sessionAuth`
attaches that user and calls `next`, whatever the Authorization header and the token
verifier are, and leaves the session as it was. -/
theorem sessionAuth_session_first (env : AuthEnv) (db : Db) (req : Request)
    (session : Session) (userId : Nat) (user : User)
    (hsession : req.session = some session) (hid : session.userId = some userId)
    (huser : User.findById db.users userId = some user) :
    sessionAuth env db req = { req := { req with user := some user }, outcome := .next } ∧
    (∀ (env2 : AuthEnv) (header : Option String),
      sessionAuth env2 db { req with authorization := header }
        = { req := { req with authorization := header, user := some user },
            outcome := .next }) ∧
    (sessionAuth env db req).req.session = req.session ∧
    (sessionAuth env db req).req.authorization = req.authorization := by
  have hsu : ∀ header, sessionUser db { req with authorization := header } = some user := by
    intro header
    simp [sessionUser, hsession, hid, huser]
  have hsu0 : sessionUser db req = some user := by
    simp [sessionUser, hsession, hid, huser]
  have h0 : sessionAuth env db req
      = { req := { req with user := some user }, outcome := .next } := by
    simp [sessionAuth, hsu0]
  refine ⟨h0, ?_, by rw [h0], by rw [h0]⟩
  intro env2 header
  simp [sessionAuth, hsu header]

/-- Witness for C10: the session of user 1 wins over a valid token of user 3, over a forged
token and over no header at all. -/
theorem sessionAuth_session_first_witness :
    (sessionAuth authEnv authDb
        { authorization := some "Bearer t3", session := some { userId := some 1 },
          user := none }).req.user
      = some { _id := 1, role := "admin", isEmailVerified := true, lockUntil := none } ∧
    (sessionAuth authEnv authDb
        { authorization := some "Bearer forged", session := some { userId := some 1 },
          user := none }).outcome = .next ∧
    (sessionAuth authEnv authDb
        { authorization := none, session := some { userId := some 1 },
          user := none }).outcome = .next := by
  have h := sessionAuth_session_first authEnv authDb
    { authorization := some "Bearer t3", session := some { userId := some 1 }, user := none }
    { userId := some 1 } 1
    { _id := 1, role := "admin", isEmailVerified := true, lockUntil := none } rfl rfl rfl
  refine ⟨?_, ?_, ?_⟩
  · rw [h.1]
  · rw [h.2.1 authEnv (some "Bearer forged")]
  · rw [h.2.1 authEnv none]

/-! ## Session resolver -/

/-- C11, evaluated at the failing input: a request with an empty session object and the
header `Bearer t2`, the valid token of the locked user 2.  Both middlewares extract the token
`t2`; `authenticateToken` answers 423, while `sessionAuth` attaches user 2, stores the id in
the session and calls `next`. -/
theorem sessionAuth_admits_locked_user :
    headerToken lockedRequest.authorization = some "t2" ∧
    bearerToken lockedRequest.authorization = some "t2" ∧
    sessionUser authDb lockedRequest = none ∧
    (authenticateToken authEnv authDb lockedRequest).outcome.status = some 423 ∧
    (sessionAuth authEnv authDb lockedRequest).outcome = .next ∧
    (sessionAuth authEnv authDb lockedRequest).req.user
      = some { _id := 2, role := "patient", isEmailVerified := true, lockUntil := some 2000 } ∧
    (sessionAuth authEnv authDb lockedRequest).req.session = some { userId := some 2 } := by
  decide

/-- C12: when the session resolves to no user and the bearer token fails verification, for
whatever reason, `sessionAuth` answers 401 "Authentication required" (so not 500), and leaves
the request as it was: no identity attached, nothing written to the session. -/
theorem sessionAuth_bad_token (env : AuthEnv) (db : Db) (req : Request) (token : String)
    (e : JwtError) (hsession : sessionUser db req = none)
    (htoken : bearerToken req.authorization = some token)
    (hverify : env.verify token = .error e) :
    (sessionAuth env db req).outcome = .respond 401 "Authentication required" ∧
    (sessionAuth env db req).outcome.status = some 401 ∧
    (sessionAuth env db req).outcome.status ≠ some 500 ∧
    (sessionAuth env db req).req = req ∧
    (sessionAuth env db req).req.user = req.user ∧
    (sessionAuth env db req).req.session = req.session := by
  have h : sessionAuth env db req
      = { req := req, outcome := .respond 401 "Authentication required" } := by
    simp only [sessionAuth, hsession, htoken, hverify]
  rw [h]
  exact ⟨rfl, rfl, by simp [Outcome.status], rfl, rfl, rfl⟩

/-- Witness for C12: an expired token with an empty session object. -/
theorem sessionAuth_bad_token_witness :
    (sessionAuth authEnv authDb
        { authorization := some "Bearer old", session := some { userId := none },
          user := none }).outcome = .respond 401 "Authentication required" ∧
    (sessionAuth authEnv authDb
        { authorization := some "Bearer old", session := some { userId := none },
          user := none }).req.session = some { userId := none } :=
  let h := sessionAuth_bad_token authEnv authDb
    { authorization := some "Bearer old", session := some { userId := none }, user := none }
    "old" JwtError.TokenExpiredError rfl (by decide) rfl
  ⟨h.1, h.2.2.2.2.2⟩

/-- C13: `optionalSessionAuth` always calls `next` and never responds; when `sessionAuth`
calls `next` the two leave the same request (same identity, same session write); when
`sessionAuth` responds, `optionalSessionAuth` sets the identity to `null` and leaves the
session and the header as they were. -/
theorem optionalSessionAuth_refines (env : AuthEnv) (db : Db) (req : Request) :
    (optionalSessionAuth env db req).outcome = .next ∧
    (optionalSessionAuth env db req).outcome.status = none ∧
    ((sessionAuth env db req).outcome = .next →
      optionalSessionAuth env db req = sessionAuth env db req) ∧
    (∀ u, (sessionAuth env db req).outcome = .next →
      (sessionAuth env db req).req.user = some u →
      (optionalSessionAuth env db req).req.user = some u ∧
      (optionalSessionAuth env db req).req.session = (sessionAuth env db req).req.session) ∧
    (∀ status message, (sessionAuth env db req).outcome = .respond status message →
      (optionalSessionAuth env db req).req.user = none ∧
      (optionalSessionAuth env db req).req.session = req.session ∧
      (optionalSessionAuth env db req).req.authorization = req.authorization ∧
      (sessionAuth env db req).req.session = req.session) := by
  have key : (optionalSessionAuth env db req).outcome = .next ∧
      ((sessionAuth env db req).outcome = .next →
        optionalSessionAuth env db req = sessionAuth env db req) ∧
      (∀ status message, (sessionAuth env db req).outcome = .respond status message →
        (optionalSessionAuth env db req).req.user = none ∧
        (optionalSessionAuth env db req).req.session = req.session ∧
        (optionalSessionAuth env db req).req.authorization = req.authorization ∧
        (sessionAuth env db req).req.session = req.session) := by
    cases h1 : sessionUser db req with
    | some user => simp [optionalSessionAuth, sessionAuth, h1]
    | none =>
      cases h2 : bearerToken req.authorization with
      | none => simp [optionalSessionAuth, sessionAuth, h1, h2]
      | some token =>
        cases h3 : env.verify token with
        | error e => simp [optionalSessionAuth, sessionAuth, h1, h2, h3]
        | ok userId =>
          cases h4 : User.findById db.users userId with
          | none => simp [optionalSessionAuth, sessionAuth, h1, h2, h3, h4]
          | some user =>
            cases h5 : req.session with
            | none => simp [optionalSessionAuth, sessionAuth, h1, h2, h3, h4, h5]
            | some session => simp [optionalSessionAuth, sessionAuth, h1, h2, h3, h4, h5]
  obtain ⟨h1, h2, h3⟩ := key
  refine ⟨h1, by rw [h1]; rfl, h2, ?_, h3⟩
  intro u hnext hu
  rw [h2 hnext]
  exact ⟨hu, rfl⟩

/-! ## Admin status update, round trip and edge cases of order creation -/

/-- C14: for an existing order and any requested status the admin update answers 200 and
stores the order with that status, whatever the prior status; deliveredAt becomes the current
time when the requested status is `delivered` and keeps its value otherwise; every other
field of the order, all stock, all carts and all other orders are unchanged. -/
theorem putOrderStatus_sets_status (env : Env) (db : Db) (orderId : Nat) (status : String)
    (order : Order) (hfound : db.orders orderId = some order) :
    (putOrderStatus env db orderId status).1.status = 200 ∧
    (∃ updated, (run db (putOrderStatus env db orderId status)).2.orders orderId = some updated ∧
      updated.status = status ∧
      (status = "delivered" → updated.deliveredAt = some env.now) ∧
      (status ≠ "delivered" → updated.deliveredAt = order.deliveredAt) ∧
      updated = { order with status := status, deliveredAt := updated.deliveredAt }) ∧
    (run db (putOrderStatus env db orderId status)).2.products = db.products ∧
    (run db (putOrderStatus env db orderId status)).2.carts = db.carts ∧
    (∀ k, k ≠ orderId →
      (run db (putOrderStatus env db orderId status)).2.orders k = db.orders k) := by
  have h : putOrderStatus env db orderId status
      = ({ status := 200, success := true, message := "Order status updated successfully",
           order := none },
         [Write.orderSave orderId
            { order with status := status
                         deliveredAt := if status = "delivered" then some env.now
                                        else order.deliveredAt }]) := by
    simp only [putOrderStatus, hfound]
  unfold run
  rw [h]
  refine ⟨rfl, ⟨{ order with
      status := status
      deliveredAt := if status = "delivered" then some env.now else order.deliveredAt },
    ?_, rfl, ?_, ?_, rfl⟩, rfl, rfl, ?_⟩
  · show (if orderId = orderId then _ else _) = _
    rw [if_pos rfl]
  · intro hs
    simp [hs]
  · intro hs
    simp [hs]
  · intro k hk
    show (if k = orderId then _ else _) = _
    rw [if_neg hk]

/-- Witness for C14: order 51 of `cancelDb` is `shipped`; the admin sets it back to
`pending`, which the handler accepts. -/
theorem putOrderStatus_sets_status_witness :
    (putOrderStatus demoEnv cancelDb 51 "pending").1.status = 200 ∧
    (run cancelDb (putOrderStatus demoEnv cancelDb 51 "pending")).2.products
      = cancelDb.products :=
  let h := putOrderStatus_sets_status demoEnv cancelDb 51 "pending" (demoOrder "shipped") rfl
  ⟨h.1, h.2.2.1⟩

theorem deltaFor_orderItems (pid : Nat) (items : List CartItem) :
    deltaFor OrderItem.product OrderItem.quantity pid (orderItems items)
      = deltaFor CartItem.product CartItem.quantity pid items := by
  induction items with
  | nil => rfl
  | cons x xs ih =>
    have hcons : orderItems (x :: xs)
        = { product := x.product, quantity := x.quantity, price := x.price,
            totalPrice := x.price * x.quantity } :: orderItems xs := rfl
    rw [hcons, deltaFor_cons, deltaFor_cons, ih]

/-- C15: when an order creation succeeds, cancelling that order next (same caller, no other
write in between) is accepted with 200 and leaves every product with the stock it had before
the order was created. -/
theorem create_then_cancel_restores_stock (env env2 : Env) (db : Db) (user : Nat)
    (body : OrderBody) (reason : Option String)
    (hcreated : (postOrders env db user body).1.status = 201) :
    (putOrderCancel env2 (run db (postOrders env db user body)).2 user env.newOrderId
        reason).1.status = 200 ∧
    ∀ pid,
      (run (run db (postOrders env db user body)).2
          (putOrderCancel env2 (run db (postOrders env db user body)).2 user env.newOrderId
            reason)).2.products pid
        = db.products pid := by
  obtain ⟨cart, -, -, -, heq⟩ := postOrders_created env db user body hcreated
  obtain ⟨ho, -, -, hp⟩ := applyWrites_created env db user cart body
  have hrun : (run db (postOrders env db user body)).2
      = applyWrites db (createdWrites env user cart body) := by
    unfold run; rw [heq]
  rw [hrun]
  have hfound : (applyWrites db (createdWrites env user cart body)).orders env.newOrderId
      = some (buildOrder env user cart.items body) := by
    rw [ho]; simp
  have hcancel := (putOrderCancel_owned env2 (applyWrites db (createdWrites env user cart body))
    user env.newOrderId reason (buildOrder env user cart.items body) hfound rfl).2 rfl
  have hp2 := (applyWrites_cancel env2 (applyWrites db (createdWrites env user cart body))
    env.newOrderId reason (buildOrder env user cart.items body)).2.2
  refine ⟨by rw [hcancel], fun pid => ?_⟩
  unfold run
  rw [hcancel]
  show (applyWrites _ (cancelWrites env2 env.newOrderId reason
    (buildOrder env user cart.items body))).products pid = _
  rw [hp2 pid, hp pid]
  have hitems : (buildOrder env user cart.items body).items = orderItems cart.items := rfl
  rw [hitems, deltaFor_orderItems, deltaFor_neg]
  cases db.products pid with
  | none => rfl
  | some p => simp

/-- Witness for C15: user 7 orders 2 of product 1 (stock 5) and cancels; the stock is 5. -/
theorem create_then_cancel_restores_stock_witness :
    (run (run demoDb (postOrders demoEnv demoDb 7 demoBody)).2
        (putOrderCancel demoEnv (run demoDb (postOrders demoEnv demoDb 7 demoBody)).2 7 100
          none)).2.products 1
      = some { name := "Aspirin", stock := 5 } :=
  (create_then_cancel_restores_stock demoEnv demoEnv demoDb 7 demoBody none (by decide)).2 1

/-- C16, evaluated at the failing input: every stock of `edgeDb` is non-negative; the cart of
user 11 has two lines of 3 units for product 1, whose stock is 5; each line passes the stock
check, the order is created, and product 1 is left with stock -1. -/
theorem postOrders_duplicate_lines_oversell :
    (∀ pid p, edgeDb.products pid = some p → 0 ≤ p.stock) ∧
    edgeDb.carts 11 = some { items := [⟨1, 3, 10⟩, ⟨1, 3, 10⟩] } ∧
    (postOrders demoEnv edgeDb 11 demoBody).1.status = 201 ∧
    ∃ p, (run edgeDb (postOrders demoEnv edgeDb 11 demoBody)).2.products 1 = some p ∧
      p.stock = -1 ∧ p.stock < 0 := by
  refine ⟨?_, rfl, by decide, ⟨{ name := "Aspirin", stock := 5 + -3 + -3 }, rfl, ?_, ?_⟩⟩
  · intro pid p h
    have h2 : (if pid = 1 then some ({ name := "Aspirin", stock := 5 } : Product)
        else if pid = 2 then some { name := "Bandage", stock := 3 } else none) = some p := h
    split_ifs at h2 <;> cases h2 <;> norm_num
  · norm_num
  · norm_num

/-- C17, evaluated at the failing input: the cart of user 10 has a first line that passes the
stock check and a second line whose product 3 is not in the store; the handler answers
500 "Error creating order", not 400, and issues no write. -/
theorem postOrders_missing_product_is_500 :
    edgeDb.carts 10 = some { items := [⟨1, 2, 10⟩, ⟨3, 1, 5⟩] } ∧
    edgeDb.products 3 = none ∧
    validateStock edgeDb.products [⟨1, 2, 10⟩] = .ok ∧
    postOrders demoEnv edgeDb 10 demoBody = (failure 500 "Error creating order", []) ∧
    (postOrders demoEnv edgeDb 10 demoBody).1.status ≠ 400 ∧
    (run edgeDb (postOrders demoEnv edgeDb 10 demoBody)).2 = edgeDb :=
  ⟨rfl, rfl, by decide, rfl, by decide, rfl⟩

/-! ## Input sanitization -/

theorem removeMatches_angleAt (cs : List Char) :
    removeMatches angleAt 0 cs = cs.filter (fun c => !decide (c = '<' ∨ c = '>')) := by
  induction cs with
  | nil => rfl
  | cons c cs ih =>
    by_cases h : c = '<' ∨ c = '>'
    · simp only [removeMatches, angleAt, h, if_true, ih]
      rw [List.filter_cons_of_neg (by simp only [h, decide_True, Bool.not_true]; decide)]
    · simp only [removeMatches, angleAt, h, if_false, ih]
      rw [List.filter_cons_of_pos (by simp only [h, decide_False, Bool.not_false])]

/-- A matcher that only fires at an angle bracket removes nothing from a text without angle
brackets. -/
theorem removeMatches_id (matchAt : List Char → Option Nat)
    (hm : ∀ c cs, c ≠ '<' → c ≠ '>' → matchAt (c :: cs) = none) (cs : List Char)
    (hcs : ∀ c ∈ cs, c ≠ '<' ∧ c ≠ '>') : removeMatches matchAt 0 cs = cs := by
  induction cs with
  | nil => rfl
  | cons c cs ih =>
    obtain ⟨h1, h2⟩ := hcs c (List.mem_cons_self _ _)
    simp only [removeMatches, hm c cs h1 h2]
    rw [ih (fun d hd => hcs d (List.mem_cons_of_mem _ hd))]

theorem tagAt_none (c : Char) (cs : List Char) (h : c ≠ '<') : tagAt (c :: cs) = none := by
  simp [tagAt, h]

theorem scriptAt_none (c : Char) (cs : List Char) (h : c ≠ '<') :
    scriptAt (c :: cs) = none := by
  have hs : startsWithIgnoreCase "<script".data (c :: cs) = false := by
    have hp : "<script".data = '<' :: "script".data := by decide
    have hu : ('<' : Char).toUpper = '<' := by decide
    rw [hp]
    simp [startsWithIgnoreCase, hu, h]
  simp [scriptAt, hs]

theorem angleAt_none (c : Char) (cs : List Char) (h1 : c ≠ '<') (h2 : c ≠ '>') :
    angleAt (c :: cs) = none := by
  simp [angleAt, h1, h2]

theorem mem_trim (cs : List Char) (c : Char) (h : c ∈ trim cs) : c ∈ cs :=
  (List.dropWhile_suffix isWhiteSpace).subset
    ((List.rdropWhile_prefix isWhiteSpace _).subset h)

theorem trim_head (cs : List Char) (c : Char) (h : (trim cs).head? = some c) :
    isWhiteSpace c = false := by
  unfold trim at h
  obtain ⟨rest, hrest⟩ := List.rdropWhile_prefix isWhiteSpace
    (cs.dropWhile isWhiteSpace)
  cases ht : List.rdropWhile isWhiteSpace (cs.dropWhile isWhiteSpace) with
  | nil => rw [ht] at h; cases h
  | cons d ds =>
    rw [ht] at h hrest
    have hd : d = c := Option.some.inj h
    subst hd
    have hh := List.head?_dropWhile_not isWhiteSpace cs
    rw [← hrest] at hh
    simpa using hh

theorem trim_getLast (cs : List Char) (c : Char) (h : (trim cs).getLast? = some c) :
    isWhiteSpace c = false := by
  unfold trim at h
  have hne : List.rdropWhile isWhiteSpace (cs.dropWhile isWhiteSpace) ≠ [] := by
    intro hnil
    rw [hnil] at h
    cases h
  have hlast := List.rdropWhile_last_not isWhiteSpace (cs.dropWhile isWhiteSpace) hne
  rw [List.getLast?_eq_getLast _ hne] at h
  rw [Option.some.inj h] at hlast
  simpa using hlast

theorem trim_trim (cs : List Char) : trim (trim cs) = trim cs := by
  have h1 : (trim cs).dropWhile isWhiteSpace = trim cs := by
    cases ht : trim cs with
    | nil => rfl
    | cons d ds =>
      have hd := trim_head cs d (by rw [ht]; rfl)
      simp [List.dropWhile_cons, hd]
  have h2 : (trim cs).rdropWhile isWhiteSpace = trim cs :=
    List.rdropWhile_idempotent isWhiteSpace (cs.dropWhile isWhiteSpace)
  show ((trim cs).dropWhile isWhiteSpace).rdropWhile isWhiteSpace = trim cs
  rw [h1, h2]

/-- The sanitized text has no angle bracket. -/
theorem sanitizeChars_no_angle (cs : List Char) :
    ∀ c ∈ sanitizeChars cs, c ≠ '<' ∧ c ≠ '>' := by
  intro c hc
  have h := mem_trim _ c hc
  rw [removeMatches_angleAt] at h
  have h2 := (List.mem_filter.mp h).2
  simpa [not_or] using h2

theorem sanitizeChars_idempotent (cs : List Char) :
    sanitizeChars (sanitizeChars cs) = sanitizeChars cs := by
  have hclean := sanitizeChars_no_angle cs
  have h1 : removeMatches tagAt 0 (sanitizeChars cs) = sanitizeChars cs :=
    removeMatches_id tagAt (fun c r h _ => tagAt_none c r h) _ hclean
  have h2 : removeMatches scriptAt 0 (sanitizeChars cs) = sanitizeChars cs :=
    removeMatches_id scriptAt (fun c r h _ => scriptAt_none c r h) _ hclean
  have h3 : removeMatches angleAt 0 (sanitizeChars cs) = sanitizeChars cs :=
    removeMatches_id angleAt angleAt_none _ hclean
  have h4 : trim (sanitizeChars cs) = sanitizeChars cs := trim_trim _
  show trim (removeMatches angleAt 0 (removeMatches scriptAt 0
    (removeMatches tagAt 0 (sanitizeChars cs)))) = sanitizeChars cs
  rw [h1, h2, h3, h4]

/-- C18: for a string input `sanitizeInput` returns a string with no `<` and no `>` whose
first and last characters are not whitespace; applying it twice gives the same as applying
it once; an input that is not a string is returned as it is. -/
theorem sanitizeInput_clean_idempotent (input : JsValue) :
    (∀ s, input = .string s →
      ∃ t, sanitizeInput input = .string t ∧ '<' ∉ t.data ∧ '>' ∉ t.data ∧
        (∀ c, t.data.head? = some c → isWhiteSpace c = false) ∧
        (∀ c, t.data.getLast? = some c → isWhiteSpace c = false)) ∧
    sanitizeInput (sanitizeInput input) = sanitizeInput input ∧
    ((∀ s, input ≠ .string s) → sanitizeInput input = input) := by
  refine ⟨?_, ?_, ?_⟩
  · rintro s rfl
    refine ⟨String.mk (sanitizeChars s.data), rfl, ?_, ?_, ?_, ?_⟩
    · intro h
      exact (sanitizeChars_no_angle s.data _ h).1 rfl
    · intro h
      exact (sanitizeChars_no_angle s.data _ h).2 rfl
    · intro c hc
      exact trim_head _ c hc
    · intro c hc
      exact trim_getLast _ c hc
  · cases input with
    | string s =>
      show JsValue.string (String.mk (sanitizeChars (sanitizeChars s.data))) = _
      rw [sanitizeChars_idempotent]
      rfl
    | number n => rfl
    | boolean b => rfl
    | null => rfl
    | undefined => rfl
    | object ref => rfl
  · intro h
    cases input with
    | string s => exact absurd rfl (h s)
    | number n => rfl
    | boolean b => rfl
    | null => rfl
    | undefined => rfl
    | object ref => rfl

end Security
